import Mathlib

/-!
Shallow embedding of the `system.accountant1` ledger application.

The repository contains two near-identical Flask entry points,
`src/system_accountant.py` (single `/add` endpoint dispatching on a hidden
`form_name` field) and `src/app.py` (separate `/buy`, `/sell`, `/balance`
endpoints).  Both store events in one SQLite table
(`events` resp. `entries`) with columns
`id, ts, kind, product, unit_price, qty, comment, value`, and both derive
the current (stock, cash) snapshot by replaying the table in ascending id
order (`calc_state`).

Modelling choices:
* A stored row is `Row`; the `ts` column is informational only and not used
  by any computation, so it is omitted.  Nullable columns are `Option`s.
* SQLite `REAL` values are modelled as `ℚ`, `INTEGER` as `ℤ`.
* A Python dict is an insertion-ordered association list; `dictGet`/`dictSet`
  model `d.get(k, default)` and `d[k] = v`.
* The store (the table) is a `List Row` kept in insertion order; since `id`
  is `INTEGER PRIMARY KEY AUTOINCREMENT`, insertion order is ascending id
  order, so `ORDER BY id ASC` is the list itself and `ORDER BY id DESC` is
  its reversal (theorems that depend on this carry the sortedness of the
  store as a hypothesis).
-/

/-- A stored event row (columns of the `events` / `entries` table; the
informational `ts` column is omitted). -/
structure Row where
  id : Int
  kind : String
  product : Option String := none
  unit_price : Option ℚ := none
  qty : Option Int := none
  comment : Option String := none
  val : Option ℚ := none
deriving DecidableEq

/-- A Python dict from (possibly `None`) product names to quantities,
as an insertion-ordered association list. -/
abbrev StockMap := List (Option String × Int)

/-- `d.get(k, dflt)`. -/
def dictGet (d : StockMap) (k : Option String) (dflt : Int) : Int :=
  match d with
  | [] => dflt
  | (k', v) :: rest => if k' = k then v else dictGet rest k dflt

/-- `d[k] = v`: replace the first binding of `k` in place, else append. -/
def dictSet (d : StockMap) (k : Option String) (v : Int) : StockMap :=
  match d with
  | [] => [(k, v)]
  | (k', v') :: rest =>
      if k' = k then (k', v) :: rest else (k', v') :: dictSet rest k v

/-- One iteration of `calc_state`'s loop.  The loop bodies of
`src/system_accountant.py` lines 47-62 and `src/app.py` lines 47-66 are
identical up to the redundant `int(...)`/`float(...)` casts in the former
(identity on the already-typed column values), so one step function embeds
both.  Python `x or 0` on an `int`-or-`None` value coincides with
`Option.getD 0` (both send `None` and `0` to `0`). -/
def applyRow (s : StockMap × ℚ) (r : Row) : StockMap × ℚ :=
  if r.kind = "buy" then
    let q : Int := r.qty.getD 0
    let price : ℚ := r.unit_price.getD 0
    (dictSet s.1 r.product (dictGet s.1 r.product 0 + q), s.2 - price * q)
  else if r.kind = "sell" then
    let q : Int := r.qty.getD 0
    let price : ℚ := r.unit_price.getD 0
    (dictSet s.1 r.product (dictGet s.1 r.product 0 - q), s.2 + price * q)
  else if r.kind = "balance" then
    (s.1, s.2 + (r.val.getD 0))
  else s

/-- The accumulation part of `calc_state`: the loop over
`SELECT * FROM ... ORDER BY id ASC` starting from `stock = {}`, `cash = 0.0`. -/
def foldState (rows : List Row) : StockMap × ℚ :=
  rows.foldl applyRow ([], 0)

/-- Python `round(x, 2)` (round half to even on the scaled value),
modelled over `ℚ`. -/
def pyRound2 (x : ℚ) : ℚ :=
  let y := x * 100
  let f : Int := ⌊y⌋
  let r := y - f
  let n : Int :=
    if r < 1/2 then f
    else if r > 1/2 then f + 1
    else if f % 2 = 0 then f else f + 1
  (n : ℚ) / 100

namespace SysAcc

/-- `calc_state` of `src/system_accountant.py` (lines 42-66): fold the table
in ascending id order, drop zero-quantity products, return the cash
unrounded. -/
def calc_state (store : List Row) : StockMap × ℚ :=
  let st := foldState store
  (st.1.filter (fun kv => kv.2 != 0), st.2)

end SysAcc

namespace App

/-- `calc_state` of `src/app.py` (lines 40-70): same fold and zero-filter,
but the returned cash is `round(cash, 2)`. -/
def calc_state (store : List Row) : StockMap × ℚ :=
  let st := foldState store
  (st.1.filter (fun kv => kv.2 != 0), pyRound2 st.2)

end App

namespace SysAcc

/-- The ranged row read of `src/system_accountant.py`'s `history`
(lines 137-140): `SELECT * FROM events WHERE id BETWEEN ? AND ?
ORDER BY id ASC`, with the bounds exactly as given (no swap). -/
def get_range (store : List Row) (a b : Int) : List Row :=
  store.filter (fun r => decide (a ≤ r.id) && decide (r.id ≤ b))

/-- `history` of `src/system_accountant.py` (lines 129-145): without a range,
`SELECT * ... ORDER BY id ASC`; with a range, `get_range` on the bounds as
given.  The snapshot is always `calc_state` over the whole store. -/
def history (store : List Row) (range : Option (Int × Int)) :
    List Row × (StockMap × ℚ) :=
  match range with
  | none => (store, calc_state store)
  | some (a, b) => (get_range store a b, calc_state store)

end SysAcc

/-- The cash accumulated by the fold, before any rounding. -/
def foldCash (rows : List Row) : ℚ :=
  (foldState rows).2

/-- Net quantity contribution of one row to product `p`, following the spec:
a buy adds its quantity, a sell subtracts it, anything else contributes
nothing. -/
def rowDelta (r : Row) (p : Option String) : Int :=
  if r.kind = "buy" ∧ r.product = p then r.qty.getD 0
  else if r.kind = "sell" ∧ r.product = p then -(r.qty.getD 0)
  else 0

/-- Accumulated net quantity of product `p` over an event sequence,
following the spec's words (sum of buy quantities minus sell quantities). -/
def netQty (rows : List Row) (p : Option String) : Int :=
  (rows.map (fun r => rowDelta r p)).sum

/-- Replace missing (SQL NULL) numeric fields of a stored row by zero. -/
def normRow (r : Row) : Row :=
  { r with unit_price := some (r.unit_price.getD 0),
           qty := some (r.qty.getD 0),
           val := some (r.val.getD 0) }

/-- The keys of a dict, in order. -/
def keys (d : StockMap) : List (Option String) :=
  d.map Prod.fst

/-!
Form submission.  The handlers receive raw form strings.  The embedding
classifies each numeric form field by its parse status instead of modelling
Python's string-to-number lexer: `missing` (the field is absent from the
form), `empty` (present but the empty string), a parsed value, or `bad`
(a non-empty string on which `float(...)` / `int(...)` raises `ValueError`).
Flash messages are (text, category) pairs; an uncaught Python exception is
`Except.error ()`.
-/

/-- Parse status of a raw numeric (`REAL`) form field. -/
inductive RawNum where
  | missing
  | empty
  | num (q : ℚ)
  | bad
deriving DecidableEq

/-- Parse status of a raw integer form field. -/
inductive RawInt where
  | missing
  | empty
  | int (z : Int)
  | bad
deriving DecidableEq

/-- Python truthiness of the raw string behind a `RawNum`
(`None` and `""` are falsy; any other string is truthy). -/
def RawNum.falsy : RawNum → Bool
  | .missing => true
  | .empty => true
  | _ => false

/-- Python truthiness of the raw string behind a `RawInt`. -/
def RawInt.falsy : RawInt → Bool
  | .missing => true
  | .empty => true
  | _ => false

/-- `float(s)` on the raw string: raises `ValueError` unless it parses. -/
def pyFloat : RawNum → Except Unit ℚ
  | .num q => .ok q
  | _ => .error ()

/-- `int(s)` on the raw string: raises `ValueError` unless it parses. -/
def pyInt : RawInt → Except Unit Int
  | .int z => .ok z
  | _ => .error ()

/-- `float(form.get(k, "0") or 0)`: a missing field defaults to `"0"`, an
empty string is replaced by `0` by the `or`, a parsed string gives its value,
and a non-numeric string raises. -/
def pyFloatOr0 : RawNum → Except Unit ℚ
  | .missing => .ok 0
  | .empty => .ok 0
  | .num q => .ok q
  | .bad => .error ()

/-- `int(form.get(k, "0") or 0)`, analogously. -/
def pyIntOr0 : RawInt → Except Unit Int
  | .missing => .ok 0
  | .empty => .ok 0
  | .int z => .ok z
  | .bad => .error ()

/-- Python `str.strip()`: drop leading and trailing whitespace.  (`String.trim`
of the standard library is not usable here because its implementation does not
reduce; this executable model is extensionally the same operation.) -/
def pyStrip (s : String) : String :=
  ⟨((s.data.dropWhile (·.isWhitespace)).reverse.dropWhile (·.isWhitespace)).reverse⟩

/-- A flash message: (text, category). -/
abbrev Msg := String × String

/-- The id `INTEGER PRIMARY KEY AUTOINCREMENT` assigns to the next insert. -/
def nextId (store : List Row) : Int :=
  (store.map (·.id)).foldr max 0 + 1

namespace SysAcc

/-- The raw form posted to `/add` of `src/system_accountant.py`. -/
structure AddForm where
  form_name : Option String := none
  buy_name : Option String := none
  buy_price : RawNum := .missing
  buy_qty : RawInt := .missing
  sell_name : Option String := none
  sell_price : RawNum := .missing
  sell_qty : RawInt := .missing
  bal_comment : Option String := none
  bal_value : RawNum := .missing
deriving DecidableEq

/-- `add_event` of `src/system_accountant.py` (lines 78-126): one endpoint for
the three forms, dispatching on the hidden `form_name`.  Returns the new store
and the flash messages, or `Except.error ()` for an uncaught `ValueError`
(the `float`/`int` calls in the buy and sell branches are unguarded).  The
handler always ends in `redirect(url_for("index"))`, so termination with
`.ok` is the redirect. -/
def add_event (store : List Row) (f : AddForm) :
    Except Unit (List Row × List Msg) :=
  if f.form_name = some "buy" then
    let name := pyStrip (f.buy_name.getD "")
    match pyFloatOr0 f.buy_price with
    | .error _ => .error ()
    | .ok price =>
      match pyIntOr0 f.buy_qty with
      | .error _ => .error ()
      | .ok qty =>
        if name = "" ∨ qty ≤ 0 then
          .ok (store, [("Podaj nazwę produktu i dodatnią liczbę sztuk.", "error")])
        else
          .ok (store ++ [{ id := nextId store, kind := "buy", product := some name,
                           unit_price := some price, qty := some qty }],
               [("Zakup zapisany.", "ok")])
  else if f.form_name = some "sell" then
    let name := pyStrip (f.sell_name.getD "")
    match pyFloatOr0 f.sell_price with
    | .error _ => .error ()
    | .ok price =>
      match pyIntOr0 f.sell_qty with
      | .error _ => .error ()
      | .ok qty =>
        if name = "" ∨ qty ≤ 0 then
          .ok (store, [("Podaj nazwę produktu i dodatnią liczbę sztuk.", "error")])
        else
          .ok (store ++ [{ id := nextId store, kind := "sell", product := some name,
                           unit_price := some price, qty := some qty }],
               [("Sprzedaż zapisana.", "ok")])
  else if f.form_name = some "balance" then
    let comment := pyStrip (f.bal_comment.getD "")
    -- `float(request.form.get("bal_value", "0"))` inside try/except ValueError:
    -- a missing field defaults to "0"; an empty or non-numeric string raises,
    -- which the handler catches and turns into `value = None`.
    let value : Option ℚ :=
      match f.bal_value with
      | .missing => some 0
      | .empty => none
      | .num q => some q
      | .bad => none
    match value with
    | none => .ok (store, [("Wartość salda musi być liczbą.", "error")])
    | some v =>
        .ok (store ++ [{ id := nextId store, kind := "balance",
                         comment := some comment, val := some v }],
             [("Zmiana salda zapisana.", "ok")])
  else
    .ok (store, [])

end SysAcc

namespace App

/-- The raw form posted to `/buy` (and `/sell`) of `src/app.py`. -/
structure BuyForm where
  product : Option String := none
  unit_price : RawNum := .missing
  qty : RawInt := .missing
deriving DecidableEq

/-- `buy` of `src/app.py` (lines 81-107).  Missing/empty fields are rejected
up front; then `float(unit_price)` and `int(qty)` run inside
`try ... except ValueError`, which also catches the explicit
`raise ValueError()` for `q <= 0 or price < 0`.  Every exit path is a flash
plus redirect, so the result is a plain (store, messages) pair. -/
def buy (store : List Row) (f : BuyForm) : List Row × List Msg :=
  let product := pyStrip (f.product.getD "")
  if product = "" ∨ f.unit_price.falsy = true ∨ f.qty.falsy = true then
    (store, [("Uzupełnij: nazwa, cena, liczba sztuk.", "error")])
  else
    match pyFloat f.unit_price, pyInt f.qty with
    | .ok price, .ok q =>
        if q ≤ 0 ∨ price < 0 then
          (store, [("Cena musi być liczbą, ilość dodatnia.", "error")])
        else
          (store ++ [{ id := nextId store, kind := "buy", product := some product,
                       unit_price := some price, qty := some q }],
           [("Zakup zapisany.", "ok")])
    | _, _ => (store, [("Cena musi być liczbą, ilość dodatnia.", "error")])

/-- The raw form posted to `/sell` of `src/app.py` (same field names as
`/buy`). -/
structure SellForm where
  product : Option String := none
  unit_price : RawNum := .missing
  qty : RawInt := .missing
deriving DecidableEq

/-- `sell` of `src/app.py` (lines 110-136): validation identical to `buy`
(missing/empty fields rejected up front, then `float`/`int` and the
`q <= 0 or price < 0` check inside `try ... except ValueError`), inserting a
sell row on success. -/
def sell (store : List Row) (f : SellForm) : List Row × List Msg :=
  let product := pyStrip (f.product.getD "")
  if product = "" ∨ f.unit_price.falsy = true ∨ f.qty.falsy = true then
    (store, [("Uzupełnij: nazwa, cena, liczba sztuk.", "error")])
  else
    match pyFloat f.unit_price, pyInt f.qty with
    | .ok price, .ok q =>
        if q ≤ 0 ∨ price < 0 then
          (store, [("Cena musi być liczbą, ilość dodatnia.", "error")])
        else
          (store ++ [{ id := nextId store, kind := "sell", product := some product,
                       unit_price := some price, qty := some q }],
           [("Sprzedaż zapisana.", "ok")])
    | _, _ => (store, [("Cena musi być liczbą, ilość dodatnia.", "error")])

/-- The raw form posted to `/balance` of `src/app.py`. -/
structure BalForm where
  comment : Option String := none
  value : RawNum := .missing
deriving DecidableEq

/-- `balance` of `src/app.py` (lines 139-159): a missing or empty value
string is rejected up front (`if not value`); then `float(value)` runs
inside `try ... except ValueError`, so a non-numeric value flashes an error
with nothing stored; a parsed value is inserted as a balance row. -/
def balance (store : List Row) (f : BalForm) : List Row × List Msg :=
  let comment := pyStrip (f.comment.getD "")
  if f.value.falsy = true then
    (store, [("Podaj wartość (liczbowa).", "error")])
  else
    match pyFloat f.value with
    | .ok v =>
        (store ++ [{ id := nextId store, kind := "balance", comment := some comment,
                     val := some v }],
         [("Zmiana salda zapisana.", "ok")])
    | .error _ => (store, [("Wartość musi być liczbą.", "error")])

end App

namespace App

/-- The ranged row read of `src/app.py`'s `history` (lines 170-175): the
bounds are swapped when given in reverse order
(`if line_from > line_to: line_from, line_to = line_to, line_from`), then
`SELECT * FROM entries WHERE id BETWEEN ? AND ? ORDER BY id DESC`. -/
def get_range (store : List Row) (a b : Int) : List Row :=
  let lo := if a > b then b else a
  let hi := if a > b then a else b
  (store.filter (fun r => decide (lo ≤ r.id) && decide (r.id ≤ hi))).reverse

/-- `history` of `src/app.py` (lines 162-179): without a range,
`SELECT * ... ORDER BY id DESC`; with a range, `get_range` with silently
swapped bounds.  The snapshot is always `calc_state` over the whole store. -/
def history (store : List Row) (range : Option (Int × Int)) :
    List Row × (StockMap × ℚ) :=
  match range with
  | none => (store.reverse, calc_state store)
  | some (a, b) => (get_range store a b, calc_state store)

end App

/-! ### Row builders and concrete stores and forms used in the theorems -/

/-- A stored buy row with all payload fields present. -/
def buyRow (i : Int) (p : Option String) (pr : ℚ) (q : Int) : Row :=
  { id := i, kind := "buy", product := p, unit_price := some pr, qty := some q }

/-- A stored sell row with all payload fields present. -/
def sellRow (i : Int) (p : Option String) (pr : ℚ) (q : Int) : Row :=
  { id := i, kind := "sell", product := p, unit_price := some pr, qty := some q }

/-- A stored balance row with all payload fields present. -/
def balRow (i : Int) (c : Option String) (v : ℚ) : Row :=
  { id := i, kind := "balance", comment := c, val := some v }

/-- The single event of Scenario A: `Buy(product="Widget", price=10.0, qty=5)`. -/
def widgetRow : Row :=
  { id := 1, kind := "buy", product := some "Widget",
    unit_price := some 10, qty := some 5 }

/-- A later sale returning the Widget stock to exactly zero. -/
def sellWidgetRow : Row :=
  { id := 2, kind := "sell", product := some "Widget",
    unit_price := some 12, qty := some 5 }

/-- An event sequence whose net Widget quantity is zero. -/
def elisionRows : List Row := [widgetRow, sellWidgetRow]

/-- A balance event whose value needs more than two decimal places. -/
def feeRow : Row := { id := 1, kind := "balance", val := some (1/1000) }

/-- A stored buy row whose numeric columns are NULL. -/
def nullRow : Row := { id := 1, kind := "buy", product := some "P" }

/-- First row of the two-event store `store2`. -/
def row1 : Row :=
  { id := 1, kind := "buy", product := some "A", unit_price := some 1, qty := some 1 }

/-- Second row of the two-event store `store2`. -/
def row2 : Row :=
  { id := 2, kind := "buy", product := some "B", unit_price := some 1, qty := some 1 }

/-- A two-event store with ids 1 and 2, in ascending id order. -/
def store2 : List Row := [row1, row2]

/-- A `/buy` form of `src/app.py` whose numeric fields parsed. -/
def mkBuyForm (name : String) (p : ℚ) (q : Int) : App.BuyForm :=
  { product := some name, unit_price := .num p, qty := .int q }

/-- An `/add` buy form of `src/system_accountant.py` whose numeric fields
parsed. -/
def mkAddBuy (name : String) (p : ℚ) (q : Int) : SysAcc.AddForm :=
  { form_name := some "buy", buy_name := some name,
    buy_price := .num p, buy_qty := .int q }

/-- An `/add` buy form with a negative unit price. -/
def negPriceForm : SysAcc.AddForm := mkAddBuy "x" (-1) 1

/-- The row `/add` persists for `negPriceForm` on an empty store. -/
def negRow : Row :=
  { id := 1, kind := "buy", product := some "x",
    unit_price := some (-1), qty := some 1 }

/-- An `/add` buy form whose price string is non-numeric. -/
def badPriceForm : SysAcc.AddForm :=
  { form_name := some "buy", buy_name := some "x",
    buy_price := .bad, buy_qty := .int 1 }

/-- A `/buy` form of `src/app.py` whose price string is non-numeric. -/
def badBuyForm : App.BuyForm :=
  { product := some "x", unit_price := .bad, qty := .int 1 }

/-- An `/add` balance form whose value string is non-numeric. -/
def badBalForm : SysAcc.AddForm :=
  { form_name := some "balance", bal_value := .bad }

/-- An `/add` form with no `form_name` field at all. -/
def emptyForm : SysAcc.AddForm := {}

/-- Does a flash list contain a message with the "error" category? -/
def hasError (ms : List Msg) : Bool :=
  ms.any (fun m => m.2 == "error")

/-- The row the buy handlers insert for a parsed form (store, name, price,
quantity). -/
def insBuyRow (store : List Row) (name : String) (p : ℚ) (q : Int) : Row :=
  { id := nextId store, kind := "buy", product := some (pyStrip name),
    unit_price := some p, qty := some q }

/-- The row the sell handlers insert for a parsed form. -/
def insSellRow (store : List Row) (name : String) (p : ℚ) (q : Int) : Row :=
  { id := nextId store, kind := "sell", product := some (pyStrip name),
    unit_price := some p, qty := some q }

/-- A `/sell` form of `src/app.py` whose numeric fields parsed. -/
def mkSellForm (name : String) (p : ℚ) (q : Int) : App.SellForm :=
  { product := some name, unit_price := .num p, qty := .int q }

/-- An `/add` sell form of `src/system_accountant.py` whose numeric fields
parsed. -/
def mkAddSell (name : String) (p : ℚ) (q : Int) : SysAcc.AddForm :=
  { form_name := some "sell", sell_name := some name,
    sell_price := .num p, sell_qty := .int q }

/-- A `/sell` form of `src/app.py` whose price string is non-numeric. -/
def badSellForm : App.SellForm :=
  { product := some "x", unit_price := .bad, qty := .int 1 }

/-- A `/balance` form of `src/app.py` whose value string is non-numeric. -/
def badValueForm : App.BalForm := { value := .bad }

/-! ### Helper lemmas -/

theorem dictGet_dictSet_self (d : StockMap) (k : Option String) (v dflt : Int) :
    dictGet (dictSet d k v) k dflt = v := by
  induction d with
  | nil => simp [dictGet, dictSet]
  | cons hd tl ih =>
      by_cases h : hd.1 = k <;>
        simp [dictGet, dictSet, h, ih]

theorem dictGet_dictSet_ne (d : StockMap) {k k' : Option String} (v dflt : Int)
    (h : k' ≠ k) : dictGet (dictSet d k v) k' dflt = dictGet d k' dflt := by
  induction d with
  | nil =>
      have hne : k ≠ k' := fun hh => h hh.symm
      simp [dictGet, dictSet, hne]
  | cons hd tl ih =>
      by_cases hk : hd.1 = k
      · subst hk
        have hne : hd.1 ≠ k' := fun hh => h hh.symm
        simp [dictGet, dictSet, hne]
      · simp [dictGet, dictSet, hk, ih]

theorem mem_keys_dictSet (d : StockMap) (a k : Option String) (v : Int) :
    a ∈ keys (dictSet d k v) ↔ a ∈ keys d ∨ a = k := by
  induction d with
  | nil => simp [keys, dictSet]
  | cons hd tl ih =>
      by_cases h : hd.1 = k
      · subst h
        by_cases ha : a = hd.1 <;> simp [keys, dictSet, ha] at ih ⊢
      · simp only [dictSet, if_neg h, keys, List.map_cons, List.mem_cons] at ih ⊢
        constructor
        · rintro (rfl | hmem)
          · exact Or.inl (Or.inl rfl)
          · rcases ih.mp hmem with hh | hh
            · exact Or.inl (Or.inr hh)
            · exact Or.inr hh
        · rintro ((rfl | hmem) | rfl)
          · exact Or.inl rfl
          · exact Or.inr (ih.mpr (Or.inl hmem))
          · exact Or.inr (ih.mpr (Or.inr rfl))

theorem keys_nodup_dictSet (d : StockMap) (k : Option String) (v : Int)
    (h : (keys d).Nodup) : (keys (dictSet d k v)).Nodup := by
  induction d with
  | nil => simp [keys, dictSet]
  | cons hd tl ih =>
      simp only [keys, List.map_cons, List.nodup_cons] at h
      by_cases hk : hd.1 = k
      · subst hk
        simpa [keys, dictSet, List.nodup_cons] using h
      · simp only [dictSet, if_neg hk, keys, List.map_cons, List.nodup_cons]
        refine ⟨fun hmem => ?_, ih h.2⟩
        rcases (mem_keys_dictSet tl hd.1 k v).mp hmem with hh | hh
        · exact h.1 hh
        · exact hk hh

theorem dictGet_of_mem (d : StockMap) (k : Option String) (v dflt : Int)
    (h : (keys d).Nodup) (hm : (k, v) ∈ d) : dictGet d k dflt = v := by
  induction d with
  | nil => cases hm
  | cons hd tl ih =>
      simp only [keys, List.map_cons, List.nodup_cons] at h
      rcases List.mem_cons.mp hm with rfl | hmem
      · simp [dictGet]
      · have hk : hd.1 ≠ k := by
          intro hh
          exact h.1 (hh ▸ List.mem_map_of_mem Prod.fst hmem)
        simp [dictGet, hk, ih h.2 hmem]

theorem keys_nodup_applyRow (s : StockMap × ℚ) (r : Row)
    (h : (keys s.1).Nodup) : (keys (applyRow s r).1).Nodup := by
  unfold applyRow
  split_ifs <;> first
    | exact keys_nodup_dictSet _ _ _ h
    | exact h

theorem keys_nodup_foldl (rows : List Row) :
    ∀ s : StockMap × ℚ, (keys s.1).Nodup →
      (keys (rows.foldl applyRow s).1).Nodup := by
  induction rows with
  | nil => intro s h; simpa using h
  | cons r rest ih =>
      intro s h
      simpa [List.foldl_cons] using ih (applyRow s r) (keys_nodup_applyRow s r h)

theorem dictGet_applyRow (s : StockMap × ℚ) (r : Row) (p : Option String) :
    dictGet (applyRow s r).1 p 0 = dictGet s.1 p 0 + rowDelta r p := by
  unfold applyRow rowDelta
  by_cases hb : r.kind = "buy"
  · by_cases hp : r.product = p
    · subst hp; simp [hb, dictGet_dictSet_self]
    · have : p ≠ r.product := fun hh => hp hh.symm
      simp [hb, hp, dictGet_dictSet_ne _ _ _ this]
  · by_cases hs : r.kind = "sell"
    · by_cases hp : r.product = p
      · subst hp
        simp [hb, hs, dictGet_dictSet_self]
        omega
      · have : p ≠ r.product := fun hh => hp hh.symm
        simp [hb, hs, hp, dictGet_dictSet_ne _ _ _ this]
    · by_cases hbal : r.kind = "balance" <;> simp [hb, hs, hbal]

theorem dictGet_foldl (rows : List Row) :
    ∀ (s : StockMap × ℚ) (p : Option String),
      dictGet (rows.foldl applyRow s).1 p 0 = dictGet s.1 p 0 + netQty rows p := by
  induction rows with
  | nil => intro s p; simp [netQty]
  | cons r rest ih =>
      intro s p
      simp only [List.foldl_cons, netQty, List.map_cons, List.sum_cons]
      rw [ih (applyRow s r) p, dictGet_applyRow]
      unfold netQty
      ring

theorem applyRow_normRow (s : StockMap × ℚ) (r : Row) :
    applyRow s (normRow r) = applyRow s r := by
  simp [applyRow, normRow]


/-! ### Claim theorems -/

/-- C1: the state projection is the left fold of the stored rows in ascending
id order, starting from empty stock and zero cash, in which a buy adds its
quantity to the product's stock entry and subtracts unit_price times quantity
from cash, a sell subtracts its quantity and adds unit_price times quantity
to cash, and a balance adds its value to cash; in particular, for a store
containing only `Buy(product="Widget", price=10.0, qty=5)`, `current_state`
(both projectors, called by the index and history routes) reports stock
`{"Widget": 5}` and cash `-50.0`. -/
theorem c1_projection_left_fold :
    (∀ rows : List Row,
        SysAcc.calc_state rows
          = ((rows.foldl applyRow ([], 0)).1.filter (fun kv => kv.2 != 0),
              (rows.foldl applyRow ([], 0)).2)
        ∧ App.calc_state rows
          = ((rows.foldl applyRow ([], 0)).1.filter (fun kv => kv.2 != 0),
              pyRound2 (rows.foldl applyRow ([], 0)).2))
    ∧ (∀ (s : StockMap × ℚ) (i : Int) (p : Option String) (pr : ℚ) (q : Int),
        applyRow s (buyRow i p pr q)
            = (dictSet s.1 p (dictGet s.1 p 0 + q), s.2 - pr * q)
        ∧ applyRow s (sellRow i p pr q)
            = (dictSet s.1 p (dictGet s.1 p 0 - q), s.2 + pr * q))
    ∧ (∀ (s : StockMap × ℚ) (i : Int) (c : Option String) (v : ℚ),
        applyRow s (balRow i c v) = (s.1, s.2 + v))
    ∧ SysAcc.calc_state [widgetRow] = ([(some "Widget", 5)], -50)
    ∧ App.calc_state [widgetRow] = ([(some "Widget", 5)], -50) := by
  refine ⟨fun rows => ⟨rfl, rfl⟩, fun s i p pr q => ⟨rfl, rfl⟩, fun s i c v => rfl, ?_, ?_⟩
  · norm_num +decide [SysAcc.calc_state, foldState, applyRow, widgetRow, dictGet, dictSet]
  · norm_num +decide [App.calc_state, foldState, applyRow, widgetRow, dictGet, dictSet,
      pyRound2]

/-- C2: for every store and every id range, the snapshot component returned
by `history` with that range equals the snapshot returned by `history` with
no range: the range restricts only the returned rows, the (stock, cash)
snapshot is always `calc_state` over the entire store.  Holds for both entry
points. -/
theorem c2_history_snapshot_invariance :
    ∀ (store : List Row) (a b : Int),
      (SysAcc.history store (some (a, b))).2 = (SysAcc.history store none).2
      ∧ (App.history store (some (a, b))).2 = (App.history store none).2 :=
  fun _ _ _ => ⟨rfl, rfl⟩

/-- C8 counterexample: the claim says the snapshot value the projector
returns is the unrounded accumulated sum, but `calc_state` of `src/app.py`
returns `round(cash, 2)`: on a store holding one balance event of value
`0.001` it returns `0.0`, not the accumulated `0.001`. -/
theorem c8_counterexample :
    (App.calc_state [feeRow]).2 ≠ foldCash [feeRow] := by
  norm_num +decide [App.calc_state, foldCash, foldState, applyRow, feeRow, pyRound2]

/-- C8 amended: the projector of `src/system_accountant.py` returns the cash
sum accumulated at full precision, unrounded; the projector of `src/app.py`
returns that sum rounded to two decimal places (Python `round(cash, 2)`) —
there the rounding happens in the projector itself, not only at presentation
time. -/
theorem c8_amended :
    ∀ rows : List Row,
      (SysAcc.calc_state rows).2 = foldCash rows
      ∧ (App.calc_state rows).2 = pyRound2 (foldCash rows) :=
  fun _ => ⟨rfl, rfl⟩

/-- C9: projection is total over stored rows (the embedding is a total
function), and NULL numeric fields (quantity, unit price, balance value) are
read as zero: projecting any row list equals projecting the same list with
every missing numeric field replaced by zero; in particular a buy row with
NULL price and quantity yields the empty snapshot rather than failing. -/
theorem c9_null_numeric_fields_as_zero :
    (∀ rows : List Row,
        SysAcc.calc_state rows = SysAcc.calc_state (rows.map normRow)
        ∧ App.calc_state rows = App.calc_state (rows.map normRow))
    ∧ SysAcc.calc_state [nullRow] = ([], 0)
    ∧ App.calc_state [nullRow] = ([], 0) := by
  have hf : ∀ rows : List Row, foldState (rows.map normRow) = foldState rows := by
    intro rows
    unfold foldState
    rw [List.foldl_map]
    simp only [applyRow_normRow]
  refine ⟨fun rows => ⟨?_, ?_⟩, ?_, ?_⟩
  · simp only [SysAcc.calc_state, hf]
  · simp only [App.calc_state, hf]
  · norm_num +decide [SysAcc.calc_state, foldState, applyRow, nullRow, dictGet, dictSet]
  · norm_num +decide [App.calc_state, foldState, applyRow, nullRow, dictGet, dictSet,
      pyRound2]

/-- C10: a POST to `/add` of `src/system_accountant.py` whose hidden
`form_name` is missing or not one of buy, sell, balance falls through every
branch: nothing is inserted, no flash message is emitted, and the handler
still completes normally with the redirect (result `.ok` with the store
unchanged and an empty message list). -/
theorem c10_unknown_kind_silent_noop :
    ∀ (store : List Row) (f : SysAcc.AddForm),
      f.form_name ≠ some "buy" → f.form_name ≠ some "sell" →
      f.form_name ≠ some "balance" →
        SysAcc.add_event store f = .ok (store, []) := by
  intro store f h1 h2 h3
  unfold SysAcc.add_event
  simp [h1, h2, h3]

/-- C10 witness: a form with no `form_name` on the empty store. -/
theorem c10_unknown_kind_silent_noop_witness :
    SysAcc.add_event [] emptyForm = .ok ([], []) :=
  c10_unknown_kind_silent_noop [] emptyForm (by decide) (by decide) (by decide)

/-- C4 counterexample: in `src/system_accountant.py` the ranged read does not
swap reversed endpoints: on the two-event store, the range (2, 1) returns no
rows while (1, 2) returns both, so `get_range(a, b) = get_range(b, a)` fails. -/
theorem c4_counterexample :
    SysAcc.get_range store2 2 1 ≠ SysAcc.get_range store2 1 2 := by decide

/-- C4 amended: only `src/app.py` silently swaps endpoints given in reverse
order, so its ranged read is symmetric in the two bounds; the ranged read of
`src/system_accountant.py` uses the bounds exactly as given
(`BETWEEN a AND b`), so a reversed range (a > b) returns the empty list
instead. -/
theorem c4_range_symmetry_amended :
    ∀ (store : List Row) (a b : Int),
      App.get_range store a b = App.get_range store b a
      ∧ (a > b → SysAcc.get_range store a b = []) := by
  intro store a b
  constructor
  · have h1 : (if a > b then b else a) = (if b > a then a else b) := by
      split_ifs <;> omega
    have h2 : (if a > b then a else b) = (if b > a then b else a) := by
      split_ifs <;> omega
    simp only [App.get_range]
    rw [h1, h2]
  · intro hab
    apply List.filter_eq_nil_iff.mpr
    intro r _
    simp only [Bool.and_eq_true, decide_eq_true_eq, not_and]
    omega

/-- C4 amended witness: on the two-event store with the reversed range (2, 1),
the `src/app.py` read equals the (1, 2) read and the
`src/system_accountant.py` read is empty. -/
theorem c4_range_symmetry_amended_witness :
    App.get_range store2 2 1 = App.get_range store2 1 2
    ∧ SysAcc.get_range store2 2 1 = [] :=
  ⟨(c4_range_symmetry_amended store2 2 1).1,
    (c4_range_symmetry_amended store2 2 1).2 (by decide)⟩

/-- C5 counterexample: `history` of `src/app.py` reads
`ORDER BY id DESC`: on the two-event store the full history comes back with
id 2 before id 1, so the returned sequence is not sorted ascending by id. -/
theorem c5_counterexample :
    ¬ ((App.history store2 none).1.Pairwise (fun x y => x.id ≤ y.id)) := by
  decide

/-- C5 amended: event sequences returned by the history reads of
`src/system_accountant.py` (with or without a range) are sorted ascending by
id, while those of `src/app.py` are sorted descending by id, for every store
whose rows are in ascending id order (which insertion order guarantees, ids
being assigned by `AUTOINCREMENT`). -/
theorem c5_history_order_amended :
    ∀ (store : List Row) (range : Option (Int × Int)),
      store.Pairwise (fun x y => x.id < y.id) →
        (SysAcc.history store range).1.Pairwise (fun x y => x.id ≤ y.id)
        ∧ (App.history store range).1.Pairwise (fun x y => y.id ≤ x.id) := by
  intro store range h
  have hle : store.Pairwise (fun x y : Row => x.id ≤ y.id) :=
    h.imp (fun hx => le_of_lt hx)
  cases range with
  | none =>
      refine ⟨hle, ?_⟩
      simpa [App.history, List.pairwise_reverse] using hle
  | some ab =>
      obtain ⟨a, b⟩ := ab
      refine ⟨?_, ?_⟩
      · simpa [SysAcc.history, SysAcc.get_range] using hle.filter _
      · simp only [App.history, App.get_range, List.pairwise_reverse]
        exact hle.filter _

/-- C5 amended witness: the two-event store, whole-history reads. -/
theorem c5_history_order_amended_witness :
    (SysAcc.history store2 none).1.Pairwise (fun x y => x.id ≤ y.id)
    ∧ (App.history store2 none).1.Pairwise (fun x y => y.id ≤ x.id) :=
  c5_history_order_amended store2 none (by decide)

/-- C7: any product whose accumulated net quantity over the event sequence is
exactly zero is absent from the stock mapping of the projected snapshot, and
every entry of every returned stock mapping has a nonzero quantity.  Holds
for both projectors (they share the zero-filter). -/
theorem c7_net_zero_elision :
    ∀ (rows : List Row) (p : Option String),
      (netQty rows p = 0 →
        p ∉ keys (SysAcc.calc_state rows).1 ∧ p ∉ keys (App.calc_state rows).1)
      ∧ (∀ kv ∈ (SysAcc.calc_state rows).1, kv.2 ≠ 0)
      ∧ (∀ kv ∈ (App.calc_state rows).1, kv.2 ≠ 0) := by
  intro rows p
  have hmemf : ∀ kv : Option String × Int,
      kv ∈ (foldState rows).1.filter (fun kv => kv.2 != 0) →
        kv ∈ (foldState rows).1 ∧ kv.2 ≠ 0 := by
    intro kv h
    have h' := List.mem_filter.mp h
    exact ⟨h'.1, by simpa using h'.2⟩
  have habs : netQty rows p = 0 →
      p ∉ keys ((foldState rows).1.filter (fun kv => kv.2 != 0)) := by
    intro h0 hp
    obtain ⟨kv, hkvmem, hfst⟩ := List.mem_map.mp hp
    obtain ⟨hin, hnz⟩ := hmemf kv hkvmem
    have hnodup : (keys (foldState rows).1).Nodup :=
      keys_nodup_foldl rows ([], 0) (by simp [keys])
    have hget : dictGet (foldState rows).1 kv.1 0 = kv.2 :=
      dictGet_of_mem _ kv.1 kv.2 0 hnodup hin
    have hfold : dictGet (foldState rows).1 p 0 = netQty rows p := by
      have h' := dictGet_foldl rows ([], 0) p
      simpa [dictGet] using h'
    rw [hfst] at hget
    rw [hget, h0] at hfold
    exact hnz hfold
  exact ⟨fun h0 => ⟨habs h0, habs h0⟩,
    fun kv h => (hmemf kv h).2, fun kv h => (hmemf kv h).2⟩

/-- C7 witness: buying then selling five Widgets nets to zero, and Widget is
absent from both snapshots. -/
theorem c7_net_zero_elision_witness :
    netQty elisionRows (some "Widget") = 0
    ∧ some "Widget" ∉ keys (SysAcc.calc_state elisionRows).1
    ∧ some "Widget" ∉ keys (App.calc_state elisionRows).1 :=
  ⟨by decide,
    ((c7_net_zero_elision elisionRows (some "Widget")).1 (by decide)).1,
    ((c7_net_zero_elision elisionRows (some "Widget")).1 (by decide)).2⟩

/-- C3 counterexample: `add_event` of `src/system_accountant.py` checks only
for an empty product and a non-positive quantity; a buy with negative unit
price `-1` is accepted and persisted (the store grows from `[]` to one row),
contradicting "rejected ... if and only if ... its unit_price is negative"
and "invalid events are never stored". -/
theorem c3_counterexample :
    SysAcc.add_event [] negPriceForm
      = .ok ([negRow], [("Zakup zapisany.", "ok")]) := by
  norm_num +decide [SysAcc.add_event, negPriceForm, mkAddBuy, pyFloatOr0, pyIntOr0,
    nextId, negRow]

/-- C3 amended: for events whose numeric fields parse, the `/buy` and
`/sell` handlers of `src/app.py` reject (leave the store unchanged, flashing
an error) exactly when the stripped product is empty, the quantity is
non-positive, or the unit price is negative; the buy and sell branches of
`src/system_accountant.py`'s `/add` reject exactly when the stripped product
is empty or the quantity is non-positive — a negative unit price is not
rejected there and the event is persisted. -/
theorem c3_validation_amended :
    ∀ (store : List Row) (name : String) (p : ℚ) (q : Int),
      ((App.buy store (mkBuyForm name p q)).1 = store
          ↔ (pyStrip name = "" ∨ q ≤ 0 ∨ p < 0))
      ∧ ((App.sell store (mkSellForm name p q)).1 = store
          ↔ (pyStrip name = "" ∨ q ≤ 0 ∨ p < 0))
      ∧ ((pyStrip name = "" ∨ q ≤ 0 ∨ p < 0) →
            hasError (App.buy store (mkBuyForm name p q)).2 = true
            ∧ hasError (App.sell store (mkSellForm name p q)).2 = true)
      ∧ (SysAcc.add_event store (mkAddBuy name p q)
            = .ok (store, [("Podaj nazwę produktu i dodatnią liczbę sztuk.", "error")])
          ↔ (pyStrip name = "" ∨ q ≤ 0))
      ∧ (SysAcc.add_event store (mkAddSell name p q)
            = .ok (store, [("Podaj nazwę produktu i dodatnią liczbę sztuk.", "error")])
          ↔ (pyStrip name = "" ∨ q ≤ 0)) := by
  intro store name p q
  have happb : App.buy store (mkBuyForm name p q)
      = if pyStrip name = "" then
          (store, [("Uzupełnij: nazwa, cena, liczba sztuk.", "error")])
        else if q ≤ 0 ∨ p < 0 then
          (store, [("Cena musi być liczbą, ilość dodatnia.", "error")])
        else
          (store ++ [insBuyRow store name p q],
           [("Zakup zapisany.", "ok")]) := by
    by_cases hname : pyStrip name = "" <;>
      by_cases hqp : q ≤ 0 ∨ p < 0 <;>
        simp [App.buy, mkBuyForm, RawNum.falsy, RawInt.falsy, pyFloat, pyInt,
          insBuyRow, hname, hqp]
  have happs : App.sell store (mkSellForm name p q)
      = if pyStrip name = "" then
          (store, [("Uzupełnij: nazwa, cena, liczba sztuk.", "error")])
        else if q ≤ 0 ∨ p < 0 then
          (store, [("Cena musi być liczbą, ilość dodatnia.", "error")])
        else
          (store ++ [insSellRow store name p q],
           [("Sprzedaż zapisana.", "ok")]) := by
    by_cases hname : pyStrip name = "" <;>
      by_cases hqp : q ≤ 0 ∨ p < 0 <;>
        simp [App.sell, mkSellForm, RawNum.falsy, RawInt.falsy, pyFloat, pyInt,
          insSellRow, hname, hqp]
  have hsab : SysAcc.add_event store (mkAddBuy name p q)
      = if pyStrip name = "" ∨ q ≤ 0 then
          .ok (store, [("Podaj nazwę produktu i dodatnią liczbę sztuk.", "error")])
        else
          .ok (store ++ [insBuyRow store name p q],
               [("Zakup zapisany.", "ok")]) := by
    by_cases hnq : pyStrip name = "" ∨ q ≤ 0 <;>
      simp [SysAcc.add_event, mkAddBuy, pyFloatOr0, pyIntOr0, insBuyRow, hnq]
  have hsas : SysAcc.add_event store (mkAddSell name p q)
      = if pyStrip name = "" ∨ q ≤ 0 then
          .ok (store, [("Podaj nazwę produktu i dodatnią liczbę sztuk.", "error")])
        else
          .ok (store ++ [insSellRow store name p q],
               [("Sprzedaż zapisana.", "ok")]) := by
    by_cases hnq : pyStrip name = "" ∨ q ≤ 0 <;>
      simp [SysAcc.add_event, mkAddSell, pyFloatOr0, pyIntOr0, insSellRow, hnq]
  have hneb : store ≠ store ++ [insBuyRow store name p q] := by
    intro h
    have hlen := congrArg List.length h
    simp only [List.length_append, List.length_cons, List.length_nil] at hlen
    omega
  have hnes : store ≠ store ++ [insSellRow store name p q] := by
    intro h
    have hlen := congrArg List.length h
    simp only [List.length_append, List.length_cons, List.length_nil] at hlen
    omega
  refine ⟨?_, ?_, ?_, ?_, ?_⟩
  · rw [happb]
    by_cases hname : pyStrip name = ""
    · simp [hname]
    · by_cases hqp : q ≤ 0 ∨ p < 0
      · simp [hname, hqp]
      · have hnot : ¬ (pyStrip name = "" ∨ q ≤ 0 ∨ p < 0) := by
          rintro (h | h)
          · exact hname h
          · exact hqp h
        simp only [if_neg hname, if_neg hqp]
        constructor
        · intro h
          exact absurd h.symm hneb
        · intro h
          exact absurd h hnot
  · rw [happs]
    by_cases hname : pyStrip name = ""
    · simp [hname]
    · by_cases hqp : q ≤ 0 ∨ p < 0
      · simp [hname, hqp]
      · have hnot : ¬ (pyStrip name = "" ∨ q ≤ 0 ∨ p < 0) := by
          rintro (h | h)
          · exact hname h
          · exact hqp h
        simp only [if_neg hname, if_neg hqp]
        constructor
        · intro h
          exact absurd h.symm hnes
        · intro h
          exact absurd h hnot
  · rw [happb, happs]
    by_cases hname : pyStrip name = ""
    · intro _
      constructor <;> simp [hname, hasError]
    · by_cases hqp : q ≤ 0 ∨ p < 0
      · intro _
        constructor <;> simp [hname, hqp, hasError]
      · have hnot : ¬ (pyStrip name = "" ∨ q ≤ 0 ∨ p < 0) := by
          rintro (h | h)
          · exact hname h
          · exact hqp h
        intro h
        exact absurd h hnot
  · rw [hsab]
    by_cases hnq : pyStrip name = "" ∨ q ≤ 0
    · simp [hnq]
    · simp +decide [hnq]
  · rw [hsas]
    by_cases hnq : pyStrip name = "" ∨ q ≤ 0
    · simp [hnq]
    · simp +decide [hnq]

/-- C3 amended witness: a buy and a sell with quantity 0 are rejected by all
four handlers with an error flash and no store change. -/
theorem c3_validation_amended_witness :
    ((App.buy [] (mkBuyForm "x" 5 0)).1 = []
        ↔ (pyStrip "x" = "" ∨ (0:Int) ≤ 0 ∨ (5:ℚ) < 0))
    ∧ ((App.sell [] (mkSellForm "x" 5 0)).1 = []
        ↔ (pyStrip "x" = "" ∨ (0:Int) ≤ 0 ∨ (5:ℚ) < 0))
    ∧ (hasError (App.buy [] (mkBuyForm "x" 5 0)).2 = true
        ∧ hasError (App.sell [] (mkSellForm "x" 5 0)).2 = true)
    ∧ (SysAcc.add_event [] (mkAddBuy "x" 5 0)
          = .ok ([], [("Podaj nazwę produktu i dodatnią liczbę sztuk.", "error")])
        ↔ (pyStrip "x" = "" ∨ (0:Int) ≤ 0))
    ∧ (SysAcc.add_event [] (mkAddSell "x" 5 0)
          = .ok ([], [("Podaj nazwę produktu i dodatnią liczbę sztuk.", "error")])
        ↔ (pyStrip "x" = "" ∨ (0:Int) ≤ 0)) :=
  ⟨(c3_validation_amended [] "x" 5 0).1,
    (c3_validation_amended [] "x" 5 0).2.1,
    (c3_validation_amended [] "x" 5 0).2.2.1 (Or.inr (Or.inl (by decide))),
    (c3_validation_amended [] "x" 5 0).2.2.2.1,
    (c3_validation_amended [] "x" 5 0).2.2.2.2⟩


/-- C6 counterexample: in `src/system_accountant.py`'s `add_event` the calls
`float(request.form.get("buy_price", "0") or 0)` and `int(... "buy_qty" ...)`
are not guarded by try/except: submitting a buy whose price string is
non-numeric terminates with an uncaught `ValueError` instead of a typed
`ValidationError`. -/
theorem c6_counterexample :
    SysAcc.add_event [] badPriceForm = .error () := by rfl

/-- C6 amended: the `/buy`, `/sell` and `/balance` handlers of `src/app.py`
turn any non-numeric price, quantity or balance value into an error flash
with nothing stored and never raise, and the balance branch of
`src/system_accountant.py`'s `/add` does the same for a non-numeric value;
but the buy and sell branches of `/add` raise an uncaught `ValueError` on a
non-numeric price or quantity string. -/
theorem c6_nonnumeric_amended :
    ∀ (store : List Row) (f : App.BuyForm) (s : App.SellForm) (b : App.BalForm)
      (g : SysAcc.AddForm),
      ((f.unit_price = .bad ∨ f.qty = .bad) →
          (App.buy store f).1 = store ∧ hasError (App.buy store f).2 = true)
      ∧ ((s.unit_price = .bad ∨ s.qty = .bad) →
          (App.sell store s).1 = store ∧ hasError (App.sell store s).2 = true)
      ∧ (b.value = .bad →
          (App.balance store b).1 = store
          ∧ hasError (App.balance store b).2 = true)
      ∧ (g.form_name = some "balance" → g.bal_value = .bad →
          SysAcc.add_event store g
            = .ok (store, [("Wartość salda musi być liczbą.", "error")]))
      ∧ (g.form_name = some "buy" → (g.buy_price = .bad ∨ g.buy_qty = .bad) →
          SysAcc.add_event store g = .error ())
      ∧ (g.form_name = some "sell" → (g.sell_price = .bad ∨ g.sell_qty = .bad) →
          SysAcc.add_event store g = .error ()) := by
  intro store f s b g
  refine ⟨?_, ?_, ?_, ?_, ?_, ?_⟩
  · intro hh
    obtain ⟨fp, fprice, fq⟩ := f
    by_cases hps : pyStrip (fp.getD "") = ""
    · constructor <;> simp [App.buy, hps, hasError]
    · rcases hh with hb | hb
      · simp only at hb
        subst hb
        cases fq <;> constructor <;>
          simp [App.buy, hps, pyFloat, pyInt, RawNum.falsy, RawInt.falsy, hasError]
      · simp only at hb
        subst hb
        cases fprice <;> constructor <;>
          simp [App.buy, hps, pyFloat, pyInt, RawNum.falsy, RawInt.falsy, hasError]
  · intro hh
    obtain ⟨sp, sprice, sq⟩ := s
    by_cases hps : pyStrip (sp.getD "") = ""
    · constructor <;> simp [App.sell, hps, hasError]
    · rcases hh with hb | hb
      · simp only at hb
        subst hb
        cases sq <;> constructor <;>
          simp [App.sell, hps, pyFloat, pyInt, RawNum.falsy, RawInt.falsy, hasError]
      · simp only at hb
        subst hb
        cases sprice <;> constructor <;>
          simp [App.sell, hps, pyFloat, pyInt, RawNum.falsy, RawInt.falsy, hasError]
  · intro hb
    obtain ⟨bc, bv⟩ := b
    simp only at hb
    subst hb
    constructor <;> simp [App.balance, RawNum.falsy, pyFloat, hasError]
  · intro hfn hbv
    simp [SysAcc.add_event, hfn, hbv]
  · intro hfn hb
    rcases hb with hb | hb
    · simp [SysAcc.add_event, hfn, hb, pyFloatOr0]
    · cases hp : g.buy_price <;>
        simp [SysAcc.add_event, hfn, hb, hp, pyFloatOr0, pyIntOr0]
  · intro hfn hb
    rcases hb with hb | hb
    · simp [SysAcc.add_event, hfn, hb, pyFloatOr0]
    · cases hp : g.sell_price <;>
        simp [SysAcc.add_event, hfn, hb, hp, pyFloatOr0, pyIntOr0]

/-- C6 amended witness: the five concrete bad-numeric submissions. -/
theorem c6_nonnumeric_amended_witness :
    ((App.buy [] badBuyForm).1 = [] ∧ hasError (App.buy [] badBuyForm).2 = true)
    ∧ ((App.sell [] badSellForm).1 = []
        ∧ hasError (App.sell [] badSellForm).2 = true)
    ∧ ((App.balance [] badValueForm).1 = []
        ∧ hasError (App.balance [] badValueForm).2 = true)
    ∧ SysAcc.add_event [] badBalForm
        = .ok ([], [("Wartość salda musi być liczbą.", "error")])
    ∧ SysAcc.add_event [] badPriceForm = .error () :=
  ⟨(c6_nonnumeric_amended [] badBuyForm badSellForm badValueForm badPriceForm).1
      (Or.inl rfl),
    (c6_nonnumeric_amended [] badBuyForm badSellForm badValueForm badPriceForm).2.1
      (Or.inl rfl),
    (c6_nonnumeric_amended [] badBuyForm badSellForm badValueForm badPriceForm).2.2.1
      rfl,
    (c6_nonnumeric_amended [] badBuyForm badSellForm badValueForm badBalForm).2.2.2.1
      rfl rfl,
    (c6_nonnumeric_amended [] badBuyForm badSellForm badValueForm badPriceForm).2.2.2.2.1
      rfl (Or.inl rfl)⟩
